import Mathlib

/-!
# Verification of the `quicker` database wrapper

Shallow embedding of the two source variants of the `quicker` library
(`quicker.py`, single-file module, and `quicker/main.py`, older package
layout) and proofs about them.

The library is a thin convenience layer over database drivers:
* `mklist` / `make_list` converts positional result rows to dicts keyed
  by column names (both variants have the identical loop);
* `Connection` validates a provider name, dispatches to a driver and
  manages commit/close on scope exit;
* `Query.execute` forwards a statement to the cursor, fetches rows and
  converts them, absorbing the PostgreSQL "no results" error.

Python dicts are modelled as insertion-ordered association lists with
overwriting update, Python exceptions as `Except`, and driver side
effects as explicit event traces.
-/

namespace Quicker

/-- A database cell value (opaque payload; we only need equality). -/
inductive Value : Type
  | int : Int → Value
  | str : String → Value
  | null : Value
deriving DecidableEq, Repr

/-- Python exceptions that the modelled code can raise. -/
inductive PyExc : Type
  | indexError          -- list index out of range (column_names[i])
  | programmingError    -- psycopg2.ProgrammingError ("no results to fetch")
  | valueError          -- ValueError: invalid/unset provider
  | commitError         -- a native driver error raised by connection.commit()
deriving DecidableEq, Repr

/-- A Python dict modelled as an insertion-ordered association list.
Assignment overwrites the value of an existing key in place and appends
a new key at the end, exactly as CPython dicts behave. -/
abbrev Dict := List (String × Value)

/-- Assignment `d[k] = v` on a Python dict: replace in place if `k` is present,
otherwise append at the end. -/
def dictSet : Dict → String → Value → Dict
  | [], k, v => [(k, v)]
  | (k', v') :: rest, k, v =>
    if k' = k then (k, v) :: rest else (k', v') :: dictSet rest k v

/-- Lookup `d[k]` on a Python dict. -/
def dictGet : Dict → String → Option Value
  | [], _ => none
  | (k', v') :: rest, k => if k' = k then some v' else dictGet rest k

/-- A result row handed to the conversion function: either a plain
positional sequence of cell values, or already a dict (as produced by
`MySQLdb.cursors.DictCursor`). -/
inductive Row : Type
  | positional : List Value → Row
  | dict : Dict → Row
deriving DecidableEq, Repr

/-- The inner loop of `mklist` on a positional row:
`for i in range(len(row)): item[column_names[i]] = row[i]`.
`i` is the current index, `item` the dict built so far.  Indexing
`column_names[i]` past the end raises `IndexError`. -/
def buildItem (column_names : List String) :
    List Value → Nat → Dict → Except PyExc Dict
  | [], _, item => .ok item
  | v :: vs, i, item =>
    match column_names[i]? with
    | some c => buildItem column_names vs (i + 1) (dictSet item c v)
    | none => .error .indexError

/-- Conversion of one row inside the `mklist` loop: a dict row is
appended unchanged, a positional row goes through the pairing loop. -/
def convRow (column_names : List String) : Row → Except PyExc Dict
  | .dict d => .ok d
  | .positional vs => buildItem column_names vs 0 []

/-- The function `mklist(column_names, rows)` from `quicker.py` (identical to
`make_list` in `quicker/main.py`): convert each row in order to a dict;
an exception raised while converting a row propagates. -/
def mklist (column_names : List String) : List Row → Except PyExc (List Dict)
  | [] => .ok []
  | r :: rest => do
    let item ← convRow column_names r
    let tail ← mklist column_names rest
    pure (item :: tail)

/-- The `Provider` enum: `MYSQL = 'mysql'`, `POSTGRES = 'postgres'`,
`SQLITE = 'sqlite'`. -/
inductive Provider : Type
  | mysql
  | postgres
  | sqlite
deriving DecidableEq, Repr

/-- The `Provider(provider)` coercion of a string into the enum; a string
that is not a member value raises `ValueError`. -/
def parseProvider : String → Option Provider
  | "mysql" => some .mysql
  | "postgres" => some .postgres
  | "sqlite" => some .sqlite
  | _ => none

/-- Observable driver-level actions, recorded in order of invocation. -/
inductive Event : Type
  | importDriver (p : Provider)  -- _import of the provider's module(s)
  | connect                      -- native connect() call
  | commit                       -- native connection.commit() call
  | closeCursor                  -- native cursor.close() call
  | closeConn                    -- native connection.close() call
deriving DecidableEq, Repr

/-- Model of `Connection.__init__` from `quicker/main.py`: `provider` defaults to
`None`; `if not provider:` (i.e. `None` or the empty string) raises
`ValueError('Database provider is not set')`, then `Provider(provider)`
raises `ValueError` for an unrecognized string.  This variant touches no
driver in `__init__` (drivers are loaded in `__enter__`), so the event
trace is always empty. -/
def mainInit (provider : Option String) : Except PyExc Provider × List Event :=
  match provider with
  | none => (.error .valueError, [])
  | some s =>
    if s = "" then (.error .valueError, [])
    else
      match parseProvider s with
      | none => (.error .valueError, [])
      | some p => (.ok p, [])

/-- Model of `Connection.__init__` from `quicker.py`: `Provider(provider)` is the
first statement, so an invalid provider raises `ValueError` before the
provider-specific blocks run `_import` and the native `connect()`.
For a valid provider this variant imports the driver, connects and opens
a cursor eagerly in `__init__`. -/
def quickerInit (provider : String) : Except PyExc Provider × List Event :=
  match parseProvider provider with
  | none => (.error .valueError, [])
  | some p => (.ok p, [.importDriver p, .connect])

/-- Model of `Connection.__enter__` from `quicker/main.py`: an `if` block for
MYSQL and one for POSTGRES each return a `Query`; there is no SQLITE
block, so for the sqlite provider control falls off the end of the
method and Python returns `None` — no query handle. -/
def mainEnter (p : Provider) : Option Provider :=
  match p with
  | .mysql => some .mysql
  | .postgres => some .postgres
  | .sqlite => none

/-- Model of `Connection.__enter__` from `quicker.py`: returns `self._queryobj`,
which `__init__` creates for every provider (mysql, postgres, sqlite). -/
def quickerEnter (p : Provider) : Option Provider :=
  some p

/-- Failure-injection switches of a fake native driver. -/
structure Driver : Type where
  commitRaises : Bool
deriving DecidableEq, Repr

/-- The call `connection.commit()` of the fake driver: the call is recorded, and
it either returns or raises a native error. -/
def nativeCommit (d : Driver) : Except PyExc Unit × List Event :=
  if d.commitRaises then (.error .commitError, [.commit])
  else (.ok (), [.commit])

/-- Model of `Connection.close` from `quicker.py` (the body of
`Connection.__exit__` in `quicker/main.py` is the same sequence):

    if self._commit: self._connection.commit()
    self._cursor.close()
    self._connection.close()

There is no `try`/`finally`, so an exception from `commit()` aborts the
method before either close call. -/
def close (commitFlag : Bool) (d : Driver) : Except PyExc Unit × List Event :=
  if commitFlag then
    match nativeCommit d with
    | (.error e, tr) => (.error e, tr)
    | (.ok (), tr) => (.ok (), tr ++ [.closeCursor, .closeConn])
  else (.ok (), [.closeCursor, .closeConn])

/-- How the body of the `with` block terminated. -/
inductive BodyOutcome : Type
  | normal                 -- the block ran to completion
  | raised                 -- a statement in the block (e.g. execute) raised
deriving DecidableEq, Repr

/-- The `with Connection(...) as q:` statement: Python invokes
`__exit__` both on normal completion and when the body raises; since
`__exit__` returns `None` (falsy), a body exception propagates after
`__exit__` runs, and an exception inside `__exit__` itself propagates.
The second component is the trace of driver calls made on scope exit. -/
def runWith (commitFlag : Bool) (d : Driver) (body : BodyOutcome) :
    Except PyExc Unit × List Event :=
  match close commitFlag d with
  | (.error e, tr) => (.error e, tr)
  | (.ok (), tr) =>
    match body with
    | .normal => (.ok (), tr)
    | .raised => (.error .programmingError, tr)

/-- Behaviour of `cursor.fetchall()` on the fake cursor: it either
returns a list of rows or raises the driver's "no results to fetch"
`ProgrammingError` (the condition an UPDATE/INSERT leaves a PostgreSQL
cursor in). -/
inductive FetchResult : Type
  | rows (rs : List Row)
  | noResults
deriving DecidableEq, Repr

/-- Fake cursor state after `cursor.execute`: what `fetchall()` does and
what `cursor.description` holds (`none` models Python `None`; otherwise
the column names, the first element of each description tuple). -/
structure Cursor : Type where
  fetch : FetchResult
  description : Option (List String)
deriving DecidableEq, Repr

/-- Model of `Query.execute` from both variants, after `cursor.execute`
succeeded: fetch all rows — for POSTGRES a `ProgrammingError` from
`fetchall()` is caught and `_fetchall` set to `None`, for the other
providers it propagates — then, if `_fetchall` is not `None`, derive
column names from `cursor.description` (empty list when `None`) and
convert via `mklist`; otherwise return `None`. -/
def queryExecute (p : Provider) (c : Cursor) :
    Except PyExc (Option (List Dict)) :=
  match p, c.fetch with
  | .postgres, .noResults => .ok none
  | .mysql, .noResults => .error .programmingError
  | .sqlite, .noResults => .error .programmingError
  | _, .rows rs =>
    match c.description with
    | none => (mklist [] rs).map some
    | some colnames => (mklist colnames rs).map some

/-- The method `Query.__call__` delegates every call to `self.execute`. -/
def queryCall (p : Provider) (c : Cursor) :
    Except PyExc (Option (List Dict)) :=
  queryExecute p c

/-! ## Helper lemmas -/

theorem ok_bind {α β : Type} (a : α) (f : α → Except PyExc β) :
    (Except.ok a >>= f) = f a := rfl

theorem error_bind {α β : Type} (e : PyExc) (f : α → Except PyExc β) :
    ((Except.error e : Except PyExc α) >>= f) = .error e := rfl

theorem dictGet_dictSet_same (d : Dict) (k : String) (v : Value) :
    dictGet (dictSet d k v) k = some v := by
  induction d with
  | nil => simp [dictSet, dictGet]
  | cons p rest ih =>
    obtain ⟨k1, v1⟩ := p
    by_cases h : k1 = k
    · simp [dictSet, h, dictGet]
    · simp [dictSet, h, dictGet, ih]

theorem dictGet_dictSet_ne (d : Dict) (k q : String) (v : Value)
    (h : q ≠ k) : dictGet (dictSet d k v) q = dictGet d q := by
  induction d with
  | nil => simp [dictSet, dictGet, Ne.symm h]
  | cons p rest ih =>
    obtain ⟨k1, v1⟩ := p
    by_cases h1 : k1 = k
    · subst h1
      simp [dictSet, dictGet, Ne.symm h]
    · simp only [dictSet, if_neg h1]
      by_cases h2 : k1 = q
      · simp [dictGet, h2]
      · simp [dictGet, h2, ih]

theorem length_dictSet_new (d : Dict) (k : String) (v : Value)
    (h : dictGet d k = none) : (dictSet d k v).length = d.length + 1 := by
  induction d with
  | nil => simp [dictSet]
  | cons p rest ih =>
    obtain ⟨k1, v1⟩ := p
    by_cases h1 : k1 = k
    · simp [dictGet, h1] at h
    · simp only [dictGet, if_neg h1] at h
      simp [dictSet, h1, ih h]

theorem buildItem_ok (cs : List String) (vs : List Value) :
    ∀ (i : Nat) (item : Dict), i + vs.length ≤ cs.length →
    ∃ d, buildItem cs vs i item = .ok d := by
  induction vs with
  | nil => intro i item _; exact ⟨item, rfl⟩
  | cons v vs ih =>
    intro i item hle
    have hi : i < cs.length := by simp at hle; omega
    have hc : cs[i]? = some cs[i] := List.getElem?_eq_getElem hi
    have := ih (i + 1) (dictSet item cs[i] v) (by simp at hle ⊢; omega)
    simpa [buildItem, hc] using this

theorem buildItem_error (cs : List String) (vs : List Value) :
    ∀ (i : Nat) (item : Dict), 0 < vs.length → cs.length < i + vs.length →
    buildItem cs vs i item = .error .indexError := by
  induction vs with
  | nil => intro i item h _; simp at h
  | cons v vs ih =>
    intro i item _ hlt
    by_cases hi : i < cs.length
    · have hc : cs[i]? = some cs[i] := List.getElem?_eq_getElem hi
      have hvs : 0 < vs.length := by
        rcases Nat.eq_zero_or_pos vs.length with h0 | h0
        · simp [h0] at hlt; omega
        · exact h0
      have := ih (i + 1) (dictSet item cs[i] v) hvs (by simp at hlt ⊢; omega)
      simpa [buildItem, hc] using this
    · have hc : cs[i]? = none := by
        rw [List.getElem?_eq_none_iff]; omega
      simp [buildItem, hc]

/-- The column names at positions `i, i+1, ..., i+n-1` are pairwise
distinct (stated through optional indexing). -/
def DistinctAt (cs : List String) (i n : Nat) : Prop :=
  ∀ j k c, j < n → k < n → cs[i + j]? = some c → cs[i + k]? = some c → j = k

theorem distinctAt_succ (cs : List String) (i n : Nat)
    (h : DistinctAt cs i (n + 1)) : DistinctAt cs (i + 1) n := by
  intro j k c hj hk hcj hck
  have h1 : i + 1 + j = i + (j + 1) := by omega
  have h2 : i + 1 + k = i + (k + 1) := by omega
  rw [h1] at hcj
  rw [h2] at hck
  have := h (j + 1) (k + 1) c (by omega) (by omega) hcj hck
  omega

theorem distinctAt_of_nodup (cs : List String) (h : cs.Nodup) (i n : Nat) :
    DistinctAt cs i n := by
  intro j k c _ _ hcj hck
  have hj : i + j < cs.length := by
    by_contra hlt
    rw [List.getElem?_eq_none_iff.mpr (by omega)] at hcj
    exact Option.noConfusion hcj
  have := List.getElem?_inj hj h (hcj.trans hck.symm)
  omega

theorem distinctAt_of_take_nodup (cs : List String) (n : Nat)
    (h : (cs.take n).Nodup) : DistinctAt cs 0 n := by
  intro j k c hj hk hcj hck
  have hj2 : (cs.take n)[j]? = some c := by
    rw [List.getElem?_take_of_lt hj]
    simpa using hcj
  have hk2 : (cs.take n)[k]? = some c := by
    rw [List.getElem?_take_of_lt hk]
    simpa using hck
  have hjlen : j < (cs.take n).length := by
    by_contra hlt
    rw [List.getElem?_eq_none_iff.mpr (by omega)] at hj2
    exact Option.noConfusion hj2
  exact List.getElem?_inj hjlen h (hj2.trans hk2.symm)

theorem buildItem_frame (cs : List String) (vs : List Value) :
    ∀ (i : Nat) (item d : Dict) (k : String),
    buildItem cs vs i item = .ok d →
    (∀ j, j < vs.length → cs[i + j]? ≠ some k) →
    dictGet d k = dictGet item k := by
  induction vs with
  | nil =>
    intro i item d k hok _
    simp [buildItem] at hok
    rw [hok]
  | cons v vs ih =>
    intro i item d k hok hk
    unfold buildItem at hok
    cases hc : cs[i]? with
    | none => rw [hc] at hok; exact Except.noConfusion hok
    | some c =>
      rw [hc] at hok
      have hck : c ≠ k := by
        intro hek
        exact hk 0 (by simp) (by simpa [hek] using hc)
      have hkshift : ∀ j, j < vs.length → cs[i + 1 + j]? ≠ some k := by
        intro j hj
        have : i + 1 + j = i + (j + 1) := by omega
        rw [this]
        exact hk (j + 1) (by simp; omega)
      rw [ih (i + 1) (dictSet item c v) d k hok hkshift]
      exact dictGet_dictSet_ne item c k v (Ne.symm hck)

theorem buildItem_lookup (cs : List String) (vs : List Value) :
    ∀ (i : Nat) (item d : Dict),
    DistinctAt cs i vs.length →
    buildItem cs vs i item = .ok d →
    ∀ j c v, cs[i + j]? = some c → vs[j]? = some v →
    dictGet d c = some v := by
  induction vs with
  | nil =>
    intro i item d _ _ j c v _ hv
    simp at hv
  | cons v0 vs ih =>
    intro i item d hdist hok j c v hc hv
    unfold buildItem at hok
    cases hc0 : cs[i]? with
    | none => rw [hc0] at hok; exact Except.noConfusion hok
    | some c0 =>
      rw [hc0] at hok
      match j with
      | 0 =>
        simp at hv
        have hcc : c = c0 := by
          have : cs[i + 0]? = cs[i]? := by norm_num
          rw [this, hc0] at hc
          exact (Option.some_injective _ hc).symm
        subst hcc
        subst hv
        rw [buildItem_frame cs vs (i + 1) (dictSet item c v0) d c hok ?_]
        · exact dictGet_dictSet_same item c v0
        · intro j2 hj2 hcj2
          have heq : i + 1 + j2 = i + (j2 + 1) := by omega
          rw [heq] at hcj2
          have := hdist (j2 + 1) 0 c (by simp; omega) (by simp)
            hcj2 (by simpa using hc0)
          omega
      | j2 + 1 =>
        have hshift : i + (j2 + 1) = i + 1 + j2 := by omega
        rw [hshift] at hc
        exact ih (i + 1) (dictSet item c0 v0) d
          (distinctAt_succ cs i vs.length hdist) hok j2 c v hc
          (by simpa using hv)

theorem buildItem_length (cs : List String) (vs : List Value) :
    ∀ (i : Nat) (item d : Dict),
    DistinctAt cs i vs.length →
    (∀ j c, j < vs.length → cs[i + j]? = some c → dictGet item c = none) →
    buildItem cs vs i item = .ok d →
    d.length = item.length + vs.length := by
  induction vs with
  | nil =>
    intro i item d _ _ hok
    simp [buildItem] at hok
    simp [hok]
  | cons v vs ih =>
    intro i item d hdist hdisj hok
    unfold buildItem at hok
    cases hc : cs[i]? with
    | none => rw [hc] at hok; exact Except.noConfusion hok
    | some c =>
      rw [hc] at hok
      have hnew : dictGet item c = none :=
        hdisj 0 c (by simp) (by simpa using hc)
      have hdisj2 : ∀ j q, j < vs.length → cs[i + 1 + j]? = some q →
          dictGet (dictSet item c v) q = none := by
        intro j q hj hcj
        have heq : i + 1 + j = i + (j + 1) := by omega
        rw [heq] at hcj
        have hqc : q ≠ c := by
          intro he
          subst he
          have := hdist (j + 1) 0 q (by simp; omega) (by simp)
            hcj (by simpa using hc)
          omega
        rw [dictGet_dictSet_ne item c q v hqc]
        exact hdisj (j + 1) q (by simp; omega) hcj
      have := ih (i + 1) (dictSet item c v) d
        (distinctAt_succ cs i vs.length hdist) hdisj2 hok
      rw [this, length_dictSet_new item c v hnew]
      simp
      omega

theorem mklist_ok_length (cs : List String) (rows : List Row) :
    ∀ ds, mklist cs rows = .ok ds → ds.length = rows.length := by
  induction rows with
  | nil =>
    intro ds h
    simp [mklist] at h
    simp [← h]
  | cons r rest ih =>
    intro ds h
    unfold mklist at h
    cases hc : convRow cs r with
    | error e => rw [hc, error_bind] at h; exact Except.noConfusion h
    | ok item =>
      rw [hc, ok_bind] at h
      cases hm : mklist cs rest with
      | error e => rw [hm, error_bind] at h; exact Except.noConfusion h
      | ok tail =>
        rw [hm, ok_bind] at h
        have : item :: tail = ds := Except.ok.inj h
        rw [← this]
        simp [ih tail hm]

theorem mklist_ok_get (cs : List String) (rows : List Row) :
    ∀ (ds : List Dict), mklist cs rows = .ok ds →
    ∀ (j : Nat) (r : Row), rows[j]? = some r →
    ∃ item, ds[j]? = some item ∧ convRow cs r = .ok item := by
  induction rows with
  | nil =>
    intro ds _ j r hr
    simp at hr
  | cons r0 rest ih =>
    intro ds h j r hr
    unfold mklist at h
    cases hc : convRow cs r0 with
    | error e => rw [hc, error_bind] at h; exact Except.noConfusion h
    | ok item0 =>
      rw [hc, ok_bind] at h
      cases hm : mklist cs rest with
      | error e => rw [hm, error_bind] at h; exact Except.noConfusion h
      | ok tail =>
        rw [hm, ok_bind] at h
        have hds : item0 :: tail = ds := Except.ok.inj h
        match j with
        | 0 =>
          simp at hr
          subst hr
          refine ⟨item0, ?_, hc⟩
          rw [← hds]
          simp
        | j2 + 1 =>
          simp at hr
          obtain ⟨item, hitem, hconv⟩ := ih tail hm j2 r hr
          refine ⟨item, ?_, hconv⟩
          rw [← hds]
          simpa using hitem

theorem mklist_ok_of_rows (cs : List String) (rows : List Row)
    (h : ∀ r ∈ rows, ∃ item, convRow cs r = .ok item) :
    ∃ ds, mklist cs rows = .ok ds := by
  induction rows with
  | nil => exact ⟨[], rfl⟩
  | cons r rest ih =>
    obtain ⟨item, hitem⟩ := h r (by simp)
    obtain ⟨tail, htail⟩ := ih (fun r2 hr2 => h r2 (by simp [hr2]))
    refine ⟨item :: tail, ?_⟩
    unfold mklist
    rw [hitem, ok_bind, htail, ok_bind]
    rfl

/-! ## Claim theorems -/

/-- Claim C1 (counterexample): with a driver whose native commit raises
on scope exit, the commit error propagates but neither close call is
attempted, refuting the claim that the cursor close and connection
close are still attempted. -/
theorem C1_counterexample :
    (Driver.mk true).commitRaises = true ∧
    Event.closeCursor ∉ (runWith true (Driver.mk true) BodyOutcome.normal).2 ∧
    Event.closeConn ∉ (runWith true (Driver.mk true) BodyOutcome.normal).2 := by
  refine ⟨rfl, ?_, ?_⟩ <;> decide

/-- Claim C1 (amended): when the native commit raises on scope exit of a
commit-on-close Connection, the original commit error propagates rather
than being silently swallowed, but the cursor close and connection
close are not attempted (there is no try/finally around the commit). -/
theorem C1_commit_error_propagates (d : Driver) (b : BodyOutcome)
    (h : d.commitRaises = true) :
    (runWith true d b).1 = .error .commitError ∧
    Event.commit ∈ (runWith true d b).2 ∧
    Event.closeCursor ∉ (runWith true d b).2 ∧
    Event.closeConn ∉ (runWith true d b).2 := by
  have hn : nativeCommit d = (.error .commitError, [.commit]) := by
    simp [nativeCommit, h]
  have hc : close true d = (.error .commitError, [.commit]) := by
    simp [close, hn]
  have hr : runWith true d b = (.error .commitError, [.commit]) := by
    simp [runWith, hc]
  rw [hr]
  refine ⟨rfl, ?_, ?_, ?_⟩ <;> decide

/-- Witness for C1 at a concrete raising driver on a normal exit. -/
theorem C1_commit_error_propagates_witness :
    (runWith true (Driver.mk true) BodyOutcome.normal).1 = .error .commitError ∧
    Event.commit ∈ (runWith true (Driver.mk true) BodyOutcome.normal).2 ∧
    Event.closeCursor ∉ (runWith true (Driver.mk true) BodyOutcome.normal).2 ∧
    Event.closeConn ∉ (runWith true (Driver.mk true) BodyOutcome.normal).2 :=
  C1_commit_error_propagates (Driver.mk true) BodyOutcome.normal rfl

/-- Claim C2: on every exit path of the Connection scope — normal
return or an exception raised mid-scope — the release sequence on exit
runs commit if requested, then the cursor close, then the connection
close, in that order (stated for a driver whose commit returns). -/
theorem C2_exit_sequence (commitFlag : Bool) (d : Driver) (b : BodyOutcome)
    (h : d.commitRaises = false) :
    (runWith commitFlag d b).2 =
      (if commitFlag then [Event.commit] else [])
        ++ [Event.closeCursor, Event.closeConn] := by
  have hn : nativeCommit d = (.ok (), [.commit]) := by
    simp [nativeCommit, h]
  cases commitFlag <;> cases b <;> simp [runWith, close, hn]

/-- Witness for C2: commit requested, exception raised mid-scope. -/
theorem C2_exit_sequence_witness :
    (runWith true (Driver.mk false) BodyOutcome.raised).2 =
      [Event.commit, Event.closeCursor, Event.closeConn] := by
  have h := C2_exit_sequence true (Driver.mk false) BodyOutcome.raised rfl
  simpa using h

/-- Claim C3: constructing a Connection with an unset or invalid
provider fails with the invalid-provider error (`ValueError`) before
any driver module is imported or any driver call is made — the driver
event trace is empty — in both source variants. -/
theorem C3_invalid_provider (s : Option String)
    (h : ∀ str, s = some str → parseProvider str = none) :
    mainInit s = (.error .valueError, []) ∧
    ∀ str, s = some str → quickerInit str = (.error .valueError, []) := by
  constructor
  · cases s with
    | none => rfl
    | some str =>
      have hp := h str rfl
      by_cases he : str = ""
      · simp [mainInit, he]
      · simp [mainInit, he, hp]
  · intro str hstr
    have hp := h str hstr
    simp [quickerInit, hp]

/-- Witness for C3 at the unrecognized provider string "oracle". -/
theorem C3_invalid_provider_witness :
    mainInit (some "oracle") = (.error .valueError, []) ∧
    quickerInit "oracle" = (.error .valueError, []) := by
  have h := C3_invalid_provider (some "oracle")
    (fun str hstr => by cases hstr; rfl)
  exact ⟨h.1, h.2 "oracle" rfl⟩

/-- Claim C4: for the postgres provider, when the fetch after a
statement with no result set raises the driver "no results" error,
execute catches it and returns the no-rows signal `None` instead of
propagating the error. -/
theorem C4_postgres_no_results (c : Cursor) (h : c.fetch = .noResults) :
    queryExecute Provider.postgres c = .ok none := by
  obtain ⟨f, desc⟩ := c
  simp at h
  subst h
  rfl

/-- Witness for C4 at a concrete no-result-set cursor. -/
theorem C4_postgres_no_results_witness :
    queryExecute Provider.postgres ⟨FetchResult.noResults, none⟩ = .ok none :=
  C4_postgres_no_results ⟨FetchResult.noResults, none⟩ rfl

/-- Claim C5 (counterexample): with duplicate column names
`c = ["a","a"]` and the equally long row `r = [1, 2]` the produced
mapping has `mapping[c[0]] = 2`, not `r[0] = 1`, refuting the claim as
universally stated. -/
theorem C5_counterexample :
    mklist ["a", "a"] [Row.positional [Value.int 1, Value.int 2]] =
      .ok [[("a", Value.int 2)]] ∧
    dictGet [("a", Value.int 2)] "a" ≠ some (Value.int 1) := by
  refine ⟨rfl, by decide⟩

/-- Claim C5 (amended): for pairwise-distinct column names `c` and rows
that are plain positional sequences with `len(r) = len(c)`, the
conversion produces one mapping per row, preserving row order, with
`mapping[c[i]] = r[i]` for every index `i`. -/
theorem C5_positional_rows (cs : List String) (rows : List (List Value))
    (hnd : cs.Nodup) (hlen : ∀ r ∈ rows, r.length = cs.length) :
    ∃ ds, mklist cs (rows.map Row.positional) = .ok ds ∧
      ds.length = rows.length ∧
      ∀ (j i : Nat) (r : List Value) (c : String) (v : Value),
        rows[j]? = some r → cs[i]? = some c → r[i]? = some v →
        ∃ item, ds[j]? = some item ∧ dictGet item c = some v := by
  have hconv : ∀ row ∈ rows.map Row.positional,
      ∃ item, convRow cs row = .ok item := by
    intro row hrow
    simp at hrow
    obtain ⟨r, hr, hrmap⟩ := hrow
    subst hrmap
    exact buildItem_ok cs r 0 [] (by simp [hlen r hr])
  obtain ⟨ds, hds⟩ := mklist_ok_of_rows cs (rows.map Row.positional) hconv
  refine ⟨ds, hds, ?_, ?_⟩
  · rw [mklist_ok_length cs (rows.map Row.positional) ds hds]
    simp
  · intro j i r c v hj hi hv
    have hjm : (rows.map Row.positional)[j]? = some (Row.positional r) := by
      simp [hj]
    obtain ⟨item, hitem, hconv2⟩ :=
      mklist_ok_get cs (rows.map Row.positional) ds hds j (Row.positional r) hjm
    refine ⟨item, hitem, ?_⟩
    have hbuild : buildItem cs r 0 [] = .ok item := hconv2
    have hdist : DistinctAt cs 0 r.length := distinctAt_of_nodup cs hnd 0 r.length
    exact buildItem_lookup cs r 0 [] item hdist hbuild i c v (by simpa using hi) hv

/-- Witness for C5 on columns ["id","name"] and the row [1, "a"]. -/
theorem C5_positional_rows_witness :
    ∃ ds, mklist ["id", "name"]
        ([[Value.int 1, Value.str "a"]].map Row.positional) = .ok ds ∧
      ds.length = 1 ∧
      ∃ item, ds[0]? = some item ∧ dictGet item "name" = some (Value.str "a") := by
  obtain ⟨ds, h1, h2, h3⟩ := C5_positional_rows ["id", "name"]
    [[Value.int 1, Value.str "a"]] (by decide) (by decide)
  refine ⟨ds, h1, by simpa using h2, ?_⟩
  obtain ⟨item, hitem, hget⟩ := h3 0 1 [Value.int 1, Value.str "a"] "name"
    (Value.str "a") (by decide) (by decide) (by decide)
  exact ⟨item, hitem, hget⟩

/-- Claim C6: a row that is already a mapping is passed through the
conversion unchanged — the output element at the same position equals
the input row — regardless of the column-name list supplied. -/
theorem C6_dict_passthrough (cs : List String) (rows : List Row)
    (ds : List Dict) (j : Nat) (d : Dict)
    (hok : mklist cs rows = .ok ds) (hrow : rows[j]? = some (Row.dict d)) :
    ds[j]? = some d := by
  obtain ⟨item, hitem, hconv⟩ := mklist_ok_get cs rows ds hok j (Row.dict d) hrow
  have hd : d = item := Except.ok.inj
    ((show convRow cs (Row.dict d) = Except.ok d from rfl).symm.trans hconv)
  rw [hd]
  exact hitem

/-- Witness for C6: a dict row survives conversion unchanged. -/
theorem C6_dict_passthrough_witness :
    ([[("x", Value.int 5)]] : List Dict)[0]? = some [("x", Value.int 5)] :=
  C6_dict_passthrough ["a"] [Row.dict [("x", Value.int 5)]]
    [[("x", Value.int 5)]] 0 [("x", Value.int 5)] rfl rfl

/-- Claim C7 (counterexample): the positional row `[1]`, shorter than
the column list `["a","b"]`, does not make the conversion fail — it
succeeds and returns a partial mapping, so no `ColumnCountMismatch`-like
error is raised. -/
theorem C7_counterexample :
    mklist ["a", "b"] [Row.positional [Value.int 1]] =
      .ok [[("a", Value.int 1)]] := rfl

/-- Claim C7 (amended): a positional row with fewer values than column
names does not raise at all; the conversion succeeds silently,
returning one (possibly partial) mapping per row — the boundary is
unguarded in the code, and no `ColumnCountMismatch`-like error
exists. -/
theorem C7_short_rows_succeed (cs : List String) (rows : List (List Value))
    (h : ∀ r ∈ rows, r.length ≤ cs.length) :
    ∃ ds, mklist cs (rows.map Row.positional) = .ok ds ∧
      ds.length = rows.length := by
  have hconv : ∀ row ∈ rows.map Row.positional,
      ∃ item, convRow cs row = .ok item := by
    intro row hrow
    simp at hrow
    obtain ⟨r, hr, hrmap⟩ := hrow
    subst hrmap
    refine buildItem_ok cs r 0 [] ?_
    have := h r hr
    omega
  obtain ⟨ds, hds⟩ := mklist_ok_of_rows cs (rows.map Row.positional) hconv
  refine ⟨ds, hds, ?_⟩
  rw [mklist_ok_length cs (rows.map Row.positional) ds hds]
  simp

/-- Witness for C7 on a concrete short row. -/
theorem C7_short_rows_succeed_witness :
    ∃ ds, mklist ["a", "b"] ([[Value.int 1]].map Row.positional) = .ok ds ∧
      ds.length = 1 := by
  have h := C7_short_rows_succeed ["a", "b"] [[Value.int 1]] (by decide)
  simpa using h

/-- Claim C8, evaluated at the failing input: in `quicker/main.py`,
entering the scope with the sqlite provider yields no query handle
(`__enter__` falls through and returns `None`) even though sqlite is an
accepted provider; in `quicker.py` every valid provider receives a
handle, and calling the handle is identical to calling its execute. -/
theorem C8_sqlite_enter_none :
    mainEnter Provider.sqlite = none ∧
    (∀ p : Provider, quickerEnter p = some p) ∧
    (∀ (p : Provider) (c : Cursor), queryCall p c = queryExecute p c) :=
  ⟨rfl, fun _ => rfl, fun _ _ => rfl⟩

/-- Claim C9: for a Connection constructed with `commit=False`, the
native commit call is never invoked on scope exit, on either exit
path. -/
theorem C9_no_commit_when_disabled (d : Driver) (b : BodyOutcome) :
    Event.commit ∉ (runWith false d b).2 := by
  cases b <;> simp [runWith, close]

/-- Claim C10 (counterexample): under duplicate column names the
mapping does not get one entry per row value — the row `[3, 4]` with
columns `["a","a"]` yields a single-entry mapping, refuting the claim
as universally stated. -/
theorem C10_counterexample :
    mklist ["a", "a"] [Row.positional [Value.int 3, Value.int 4]] =
      .ok [[("a", Value.int 4)]] ∧
    ([("a", Value.int 4)] : Dict).length ≠ 2 :=
  ⟨rfl, by decide⟩

/-- Claim C10 (amended): a positional row longer than the column list
makes the conversion fail with `IndexError` while pairing values to
names; a row at most as long never raises and yields one mapping
(silently partial for shorter rows), and that mapping has exactly one
entry per row value when the column names it uses are pairwise
distinct — with duplicates the overwriting assignment leaves fewer
entries. -/
theorem C10_row_length (cs : List String) (vs : List Value) :
    (cs.length < vs.length →
      mklist cs [Row.positional vs] = .error .indexError) ∧
    (vs.length ≤ cs.length →
      ∃ d, mklist cs [Row.positional vs] = .ok [d] ∧
        ((cs.take vs.length).Nodup → d.length = vs.length)) := by
  constructor
  · intro hlt
    have hb : buildItem cs vs 0 [] = .error .indexError :=
      buildItem_error cs vs 0 [] (by omega) (by omega)
    unfold mklist
    rw [show convRow cs (Row.positional vs) = buildItem cs vs 0 [] from rfl,
      hb, error_bind]
  · intro hle
    obtain ⟨d, hd⟩ := buildItem_ok cs vs 0 [] (by omega)
    refine ⟨d, ?_, ?_⟩
    · unfold mklist
      rw [show convRow cs (Row.positional vs) = buildItem cs vs 0 [] from rfl,
        hd, ok_bind]
      rfl
    · intro hnd
      have hdist : DistinctAt cs 0 vs.length :=
        distinctAt_of_take_nodup cs vs.length hnd
      have := buildItem_length cs vs 0 [] d hdist
        (by intro j c _ _; rfl) hd
      simpa using this

/-- Witness for C10: a too-long row raises; a row matching two distinct
columns succeeds with a two-entry mapping. -/
theorem C10_row_length_witness :
    mklist ["a"] [Row.positional [Value.int 1, Value.int 2]] =
      .error .indexError ∧
    ∃ d, mklist ["a", "b"] [Row.positional [Value.int 1, Value.int 2]] =
      .ok [d] ∧ d.length = 2 := by
  constructor
  · exact (C10_row_length ["a"] [Value.int 1, Value.int 2]).1 (by decide)
  · obtain ⟨d, hd, hlen⟩ :=
      (C10_row_length ["a", "b"] [Value.int 1, Value.int 2]).2 (by decide)
    exact ⟨d, hd, by simpa using hlen (by decide)⟩

end Quicker
